import Mathlib

/-!
Verification of the analytics core of the economic-indicator dashboard:
the extreme-movement detector and contextual annotator
(`src/utils/explanations.py`) and the per-country trend predictor
(`models/predictor.py`).

The panel (pandas DataFrame with columns `country`, `year`, `value`) is
embedded as a list of rows; float64 values are embedded as rationals.
Rows with value 0 make the pandas `pct_change` produce ±inf, which has no
rational counterpart, so theorems about the percentage-change formula carry
the hypothesis that values are nonzero.  Batteries marks the rational
operations irreducible; they are restored to semireducible so that concrete
runs of the embedded code reduce inside the kernel.
-/

attribute [local semireducible] Rat.add Rat.mul Rat.sub Rat.inv

namespace EconDash

/-- One observation of the indicator panel: a DataFrame row with columns
`country`, `year`, `value`. -/
structure Row where
  country : String
  year : Int
  value : Rat
deriving DecidableEq

/-- One detected movement, as built in `detect_extremes`:
`{year, change_pct, value}`. -/
structure Entry where
  year : Int
  change_pct : Rat
  value : Rat
deriving DecidableEq

/-! ### Generic list helpers shared by the embedded operations -/

/-- Seen-set loop underlying both `pandas.Series.unique` (first-appearance
order) and the explicit dedup loop of `generate_explanations`. -/
def uniqueFirstAux [DecidableEq α] : List α → List α → List α
  | _, [] => []
  | seen, h :: t =>
    if h ∈ seen then uniqueFirstAux seen t
    else h :: uniqueFirstAux (h :: seen) t

/-- Distinct elements of a list in first-appearance order. -/
def uniqueFirst [DecidableEq α] (l : List α) : List α := uniqueFirstAux [] l

/-! ### `detect_extremes` (src/utils/explanations.py, lines 37-77)

`_percent_changes` sorts the frame by `(country, year)` (a stable lexsort)
and computes `groupby('country')['value'].pct_change() * 100`.  Filtering
the sorted frame to one country therefore yields that country's rows in
ascending year order, and each row's change is taken against the
immediately preceding row of the same country.  The embedding performs
the same computation country by country. -/

/-- Row order used per country: ascending year (`sort_values(['country',
'year'])` restricted to one country). -/
def rowLe (a b : Row) : Prop := a.year ≤ b.year

instance : DecidableRel rowLe := fun a b => inferInstanceAs (Decidable (a.year ≤ b.year))

instance : IsTotal Row rowLe := ⟨fun a b => Int.le_total a.year b.year⟩

instance : IsTrans Row rowLe := ⟨fun _ _ _ h1 h2 => le_trans h1 h2⟩

/-- Comparison used by `nlargest(top_n, 'pct_change')`: larger changes
first, ties kept in input (year-ascending) order (`keep='first'`). -/
def riseLe (a b : Entry) : Prop := b.change_pct ≤ a.change_pct

instance : DecidableRel riseLe := fun a b => inferInstanceAs (Decidable (b.change_pct ≤ a.change_pct))

instance : IsTotal Entry riseLe := ⟨fun a b => le_total b.change_pct a.change_pct⟩

instance : IsTrans Entry riseLe := ⟨fun _ _ _ h1 h2 => le_trans h2 h1⟩

/-- Comparison used by `nsmallest(top_n, 'pct_change')`: smaller changes
first, ties kept in input order. -/
def dipLe (a b : Entry) : Prop := a.change_pct ≤ b.change_pct

instance : DecidableRel dipLe := fun a b => inferInstanceAs (Decidable (a.change_pct ≤ b.change_pct))

instance : IsTotal Entry dipLe := ⟨fun a b => le_total a.change_pct b.change_pct⟩

instance : IsTrans Entry dipLe := ⟨fun _ _ _ h1 h2 => le_trans h1 h2⟩

/-- The rows of one country, in frame order (`df[df['country'] == c]`). -/
def countryRows (df : List Row) (c : String) : List Row :=
  df.filter (fun r => r.country == c)

/-- Stable sort by ascending year, the per-country effect of
`sort_values(['country', 'year'])`. -/
def sortYear (rows : List Row) : List Row := List.insertionSort rowLe rows

/-- `pct_change() * 100` of row `q` against its predecessor `p`, packaged
as in `detect_extremes`. -/
def pctEntry (p q : Row) : Entry :=
  ⟨q.year, (q.value - p.value) / p.value * 100, q.value⟩

/-- The per-country change list: one entry per consecutive pair of the
year-sorted rows.  The first row has no change (`pct_change` yields NaN
there) and is dropped, exactly as `dropna(subset=['pct_change'])` does. -/
def changesOf : List Row → List Entry
  | [] => []
  | [_] => []
  | p :: q :: t => pctEntry p q :: changesOf (q :: t)

/-- The year-sorted rows of one country. -/
def sortedRowsOf (df : List Row) (c : String) : List Row :=
  sortYear (countryRows df c)

/-- The valid (non-NaN) change entries of one country (`cvalid`). -/
def cvalidOf (df : List Row) (c : String) : List Entry :=
  changesOf (sortedRowsOf df c)

/-- `pc_df['country'].unique()`: the frame is sorted by country first, so
the countries come out as the ascending enumeration of the distinct
country names. -/
def detectCountries (df : List Row) : List String :=
  List.insertionSort (· ≤ ·) (uniqueFirst (df.map (fun r => r.country)))

/-- `detect_extremes(df, indicator_key, top_n)`.  Countries whose change
list is empty are skipped (`continue`); otherwise `nlargest`/`nsmallest`
are `take top_n` of the stably sorted change list (`keep='first'`), and a
non-positive `top_n` makes pandas return the empty selection.
The `indicator_key` argument is accepted and unused, as in the source. -/
def detect_extremes (df : List Row) (indicator_key : String) (top_n : Int) :
    List (String × (List Entry × List Entry)) :=
  (detectCountries df).filterMap (fun c =>
    if (cvalidOf df c).isEmpty then none
    else some (c, ((List.insertionSort riseLe (cvalidOf df c)).take top_n.toNat,
                   (List.insertionSort dipLe (cvalidOf df c)).take top_n.toNat)))

/-! ### Contextual annotation (src/utils/explanations.py, lines 11-35, 79-86) -/

/-- `GLOBAL_EVENTS`: global macro events, year to description. -/
def GLOBAL_EVENTS : List (Int × String) :=
  [(2001, "Dot-com aftermath and 9/11 shocks affecting global growth and risk appetite"),
   (2003, "SARS outbreak impacting Asian travel and health indicators"),
   (2008, "Global financial crisis peak; credit contraction and demand slump"),
   (2009, "Post-crisis recession; lingering unemployment and GDP contraction"),
   (2011, "European sovereign debt concerns; uneven recovery"),
   (2014, "Oil price collapse impacting energy exporters and inflation"),
   (2015, "Chinese market volatility; adjustments in global trade flows"),
   (2016, "Brexit referendum uncertainty (mainly UK/EU); global policy shifts"),
   (2020, "COVID-19 pandemic shock: mobility restrictions, demand collapse, health system strain"),
   (2021, "Initial recovery phase; supply chain bottlenecks and rebound effects"),
   (2022, "Energy/commodity price surge and inflation spike (Ukraine conflict)"),
   (2023, "Post-pandemic normalization; disinflation trends and recovery consolidation")]

/-- `INDICATOR_CONTEXT_RULES`: ordered `(keyword, {year: description})`
rules for indicator-specific context. -/
def INDICATOR_CONTEXT_RULES : List (String × List (Int × String)) :=
  [("gdp", [(2008, "Sharp downturn in output due to financial crisis"),
            (2020, "Historic contraction from pandemic restrictions"),
            (2022, "Commodity price dynamics and uneven recovery")]),
   ("inflation", [(2020, "Low inflation amid demand shock"),
                  (2022, "Global inflation spike driven by energy & supply chains")]),
   ("unemployment", [(2009, "Labor market deterioration post-crisis"),
                     (2020, "Sudden spike from lockdowns")]),
   ("co2", [(2020, "Temporary emissions drop from reduced mobility & industry")]),
   ("energy", [(2014, "Oil price collapse altering energy investment"),
               (2022, "Energy price shock and policy shifts")]),
   ("internet", [(2020, "Acceleration in digital adoption under lockdowns")]),
   ("health", [(2020, "Healthcare strain and vaccination disruptions")])]

/-- `needle.isPrefixOf haystack` on character lists, written out so that
concrete runs reduce in the kernel. -/
def leadsList : List Char → List Char → Bool
  | [], _ => true
  | _ :: _, [] => false
  | a :: t1, b :: t2 => a == b && leadsList t1 t2

/-- Substring occurrence on character lists. -/
def hasSubList : List Char → List Char → Bool
  | n, [] => n.isEmpty
  | n, h :: t => leadsList n (h :: t) || hasSubList n t

/-- Python's `fragment in indicator_key` substring test. -/
def strContains (haystack needle : String) : Bool :=
  hasSubList needle.data haystack.data

/-- `_augment_reason(indicator_key, year)`: the global event for `year`
(if any) followed by the description of every context rule whose keyword
occurs in `indicator_key` and whose mapping contains `year`, in rule-list
order. -/
def _augment_reason (indicator_key : String) (year : Int) : List String :=
  (match GLOBAL_EVENTS.lookup year with
   | some d => [d]
   | none => []) ++
  INDICATOR_CONTEXT_RULES.filterMap (fun rule =>
    if strContains indicator_key rule.1 then rule.2.lookup year else none)

/-! ### `generate_explanations` (src/utils/explanations.py, lines 88-123)

The display lines interpolate floats with `{:.2f}`.  The embedding renders
a rational to two decimals (half-up on the magnitude); the binary-float
rounding detail of CPython's formatter is abstracted, and no theorem below
depends on the rendered digits. -/

/-- Two's-complement-free fixed-point rendering `{q:.Nf}`. -/
def fmtFixed (k : Nat) (q : Rat) : String :=
  let pow : Int := (10 : Int) ^ k
  let sgn := if q < 0 then "-" else ""
  let a := if q < 0 then -q else q
  let c : Int := Int.floor (a * (pow : Rat) + 1 / 2)
  let ip := c / pow
  let fp := (c % pow).toNat
  let fpStr := toString fp
  let pad := String.mk (List.replicate (k - fpStr.length) '0')
  sgn ++ toString ip ++ (if k = 0 then "" else "." ++ pad ++ fpStr)

/-- `{q:.2f}`. -/
def fmt2 (q : Rat) : String := fmtFixed 2 q

/-- One dip line: `🔻 {country} {year}: {change:.2f}% decline (value
{value:.2f}) — {reasons}`, with the generic fallback when no reason
matched. -/
def dipLine (indicator_key : String) (country : String) (e : Entry) : String :=
  let reasons := _augment_reason indicator_key e.year
  let reason_str :=
    if reasons.isEmpty then "Local factors or data volatility"
    else String.intercalate "; " reasons
  "🔻 " ++ (country ++ " " ++ toString e.year ++ ": " ++ fmt2 e.change_pct ++
    "% decline (value " ++ fmt2 e.value ++ ") — " ++ reason_str)

/-- One rise line, with its own fallback text. -/
def riseLine (indicator_key : String) (country : String) (e : Entry) : String :=
  let reasons := _augment_reason indicator_key e.year
  let reason_str :=
    if reasons.isEmpty then "Potential recovery, structural growth, or base effects"
    else String.intercalate "; " reasons
  "🔺 " ++ (country ++ " " ++ toString e.year ++ ": " ++ fmt2 e.change_pct ++
    "% rise (value " ++ fmt2 e.value ++ ") — " ++ reason_str)

/-- The `lines` accumulator of `generate_explanations`: per country, all
dip lines then all rise lines, countries in `detect_extremes` order. -/
def movementLines (df : List Row) (indicator_key : String) (top_n : Int) : List String :=
  (detect_extremes df indicator_key top_n).foldl
    (fun acc cv =>
      acc ++ cv.2.2.map (dipLine indicator_key cv.1) ++ cv.2.1.map (riseLine indicator_key cv.1))
    []

/-- The terminal disclaimer line. -/
def disclaimerLine : String :=
  "_Explanations are heuristic; verify with authoritative sources._"

/-- `generate_explanations(df, indicator_key, top_n)`. -/
def generate_explanations (df : List Row) (indicator_key : String) (top_n : Int) : List String :=
  if df.isEmpty then ["No data available to analyze dips/rises."]
  else
    let lines := movementLines df indicator_key top_n
    if lines.isEmpty then ["No significant year-over-year movements detected."]
    else uniqueFirst lines ++ [disclaimerLine]

/-! ### `GDPPredictor` (models/predictor.py)

`train` fits `sklearn.linear_model.LinearRegression` on the single
regressor `year`; for one regressor the least-squares fit is the
closed-form simple-OLS solution embedded below (when all years of a
country coincide the centred system is singular and both the `lstsq`
minimum-norm solution and the formula with rational division-by-zero
give slope `0`, intercept `mean`).  `self.models` and `self.metrics` are
populated together with the same keys, so the embedding keeps one
registry carrying the model and its metrics. -/

/-- A registered per-country model: `model.coef_[0]`, `model.intercept_`
and the entries of `self.metrics[country]`. -/
structure Model where
  coefficient : Rat
  intercept : Rat
  r2_score : Rat
  mae : Rat
deriving DecidableEq

/-- The registry `self.models`/`self.metrics`, keyed by country. -/
abbrev Registry := List (String × Model)

/-- Sum of a rational-valued function over a list. -/
def sumBy (l : List α) (f : α → Rat) : Rat := (l.map f).sum

/-- Ordinary least squares on the `(year, value)` pairs of one country,
plus `r2_score`, `mean_absolute_error` (predictor.py, lines 38-56). -/
def fitModel (pts : List (Int × Rat)) : Model :=
  let n : Rat := (pts.length : Nat)
  let sx := sumBy pts (fun p => (p.1 : Rat))
  let sy := sumBy pts (fun p => p.2)
  let sxy := sumBy pts (fun p => (p.1 : Rat) * p.2)
  let sxx := sumBy pts (fun p => (p.1 : Rat) * (p.1 : Rat))
  let slope := (n * sxy - sx * sy) / (n * sxx - sx * sx)
  let intercept := (sy - slope * sx) / n
  let ssRes := sumBy pts (fun p => (p.2 - (slope * (p.1 : Rat) + intercept)) ^ 2)
  let ybar := sy / n
  let ssTot := sumBy pts (fun p => (p.2 - ybar) ^ 2)
  let r2 := 1 - ssRes / ssTot
  let mae := sumBy pts (fun p => |p.2 - (slope * (p.1 : Rat) + intercept)|) / n
  ⟨slope, intercept, r2, mae⟩

/-- The model `train` would register for one country: `None` when the
country has fewer than 3 rows (`continue`). -/
def trainOne (df : List Row) (c : String) : Option Model :=
  let cd := sortYear (countryRows df c)
  if cd.length < 3 then none
  else some (fitModel (cd.map (fun r => (r.year, r.value))))

/-- `train(df)` (predictor.py, lines 19-58): iterate
`df['country'].unique()` and register a model per country with at least
3 observations. -/
def train (df : List Row) : Registry :=
  (uniqueFirst (df.map (fun r => r.country))).filterMap (fun c =>
    (trainOne df c).map (fun m => (c, m)))

/-- One predicted row of the output frame of `predict`. -/
structure Pred where
  country : String
  year : Int
  value : Rat
deriving DecidableEq

/-- The rows `predict` builds once the model is found:
`model.predict(years)` for the line model. -/
def predictRows (m : Model) (c : String) (years : List Int) : List Pred :=
  years.map (fun y => ⟨c, y, m.coefficient * (y : Rat) + m.intercept⟩)

/-- `predict(country, years)` (predictor.py, lines 60-82): raises
`ValueError(f"No model trained for {country}")` when the country has no
registered model. -/
def predict (st : Registry) (c : String) (years : List Int) :
    Except String (List Pred) :=
  match st.lookup c with
  | none => .error ("No model trained for " ++ c)
  | some m => .ok (predictRows m c years)

/-- `country_data['year'].max()` on a (nonempty in context) year list. -/
def maxYearD : List Int → Int
  | [] => 0
  | h :: t => t.foldl max h

/-- `predict_next_year(df)` (predictor.py, lines 84-114): train if the
registry is empty, then one prediction at `max(year) + 1` for every
country of the frame that has a model; remaining countries are skipped. -/
def predict_next_year (st : Registry) (df : List Row) : List Pred :=
  let st' := if st.isEmpty then train df else st
  ((uniqueFirst (df.map (fun r => r.country))).filterMap (fun c =>
    match st'.lookup c with
    | none => none
    | some m =>
      let next := maxYearD ((countryRows df c).map (fun r => r.year)) + 1
      some (predictRows m c [next]))).flatten

/-- One row of the `predict_with_confidence` output frame. -/
structure PredC where
  country : String
  year : Int
  value : Rat
  lower_bound : Rat
  upper_bound : Rat
deriving DecidableEq

/-- `predict_with_confidence(df, years, confidence)` (predictor.py, lines
166-207): train if the registry is empty, then per country with a model
the predictions with `margin = mae * 2` bounds.  The `confidence`
argument is accepted and nowhere used, exactly as in the source. -/
def predict_with_confidence (st : Registry) (df : List Row) (years : List Int)
    (confidence : Rat) : List PredC :=
  let st' := if st.isEmpty then train df else st
  ((uniqueFirst (df.map (fun r => r.country))).filterMap (fun c =>
    match st'.lookup c with
    | none => none
    | some m =>
      let margin := m.mae * 2
      some ((predictRows m c years).map (fun p =>
        ⟨p.country, p.year, p.value, p.value - margin, p.value + margin⟩)))).flatten

/-! ### `get_model_summary` (predictor.py, lines 116-164)

The summary text interpolates floats with `{:,.0f}`, `{:.2f}`, `{:.4f}`,
`{:.1f}` and `{:.2e}`.  Fixed-point rendering reuses `fmtFixed`; the
comma-grouped and scientific renderings are embedded below over the
rationals (half-up rounding; CPython's float-specific digit selection is
abstracted).  The claims under check only constrain the no-model branch,
which is embedded verbatim. -/

/-- Insert thousands separators into a reversed digit list. -/
def groupDigitsRev : List Char → Nat → List Char
  | [], _ => []
  | c :: t, k =>
    if k = 3 then ',' :: c :: groupDigitsRev t 1
    else c :: groupDigitsRev t (k + 1)

/-- `{q:,.0f}`: round half-up on the magnitude, then comma-group. -/
def fmtComma0 (q : Rat) : String :=
  let sgn := if q < 0 then "-" else ""
  let a := if q < 0 then -q else q
  let n : Nat := (Int.floor (a + 1 / 2)).toNat
  let digits := (toString n).data
  sgn ++ String.mk (groupDigitsRev digits.reverse 0).reverse

/-- Normalise a positive rational into `[1, 10)`, returning the mantissa
and the decimal exponent; fuel-bounded (ample for any value the embedded
code meets). -/
def sciNorm : Nat → Rat → Int → Rat × Int
  | 0, a, e => (a, e)
  | fuel + 1, a, e =>
    if a < 1 then sciNorm fuel (a * 10) (e - 1)
    else if 10 ≤ a then sciNorm fuel (a / 10) (e + 1)
    else (a, e)

/-- `{q:.2e}` scientific rendering. -/
def fmtSci2 (q : Rat) : String :=
  if q = 0 then "0.00e+00"
  else
    let sgn := if q < 0 then "-" else ""
    let a := if q < 0 then -q else q
    let me := sciNorm 4000 a 0
    let mant := fmtFixed 2 me.1
    let expoAbs := toString (if me.2 < 0 then -me.2 else me.2)
    let expoPad := if me.2 < 10 ∧ -10 < me.2 then "0" else ""
    sgn ++ mant ++ "e" ++ (if me.2 < 0 then "-" else "+") ++ expoPad ++ expoAbs

/-- The `coef_str` scaling of `get_model_summary`. -/
def coefStr (coef : Rat) : String :=
  if 1000000000 ≤ |coef| then "$" ++ fmtFixed 2 (coef / 1000000000) ++ "B"
  else if 1000000 ≤ |coef| then "$" ++ fmtFixed 2 (coef / 1000000) ++ "M"
  else "$" ++ fmtComma0 coef

/-- The `mae_str` scaling of `get_model_summary`. -/
def maeStr (mae : Rat) : String :=
  if 1000000000000 ≤ |mae| then "$" ++ fmtFixed 2 (mae / 1000000000000) ++ "T"
  else if 1000000000 ≤ |mae| then "$" ++ fmtFixed 2 (mae / 1000000000) ++ "B"
  else if 1000000 ≤ |mae| then "$" ++ fmtFixed 2 (mae / 1000000) ++ "M"
  else "$" ++ fmtComma0 mae

/-- The summary text of the model branch (the stripped f-string template
of predictor.py, lines 155-162). -/
def summaryBody (country : String) (m : Model) : String :=
  let trend := if 0 < m.coefficient then "increasing" else "decreasing"
  "**" ++ country ++ " GDP Prediction Model**\n\n- **Trend**: GDP is " ++ trend ++
    " by approximately " ++ coefStr m.coefficient ++ " per year\n- **R² Score**: " ++
    fmtFixed 4 m.r2_score ++ " (model explains " ++ fmtFixed 1 (m.r2_score * 100) ++
    "% of variance)\n- **Mean Absolute Error**: " ++ maeStr m.mae ++
    "\n- **Model Equation**: GDP = " ++ fmtSci2 m.coefficient ++ " × Year + " ++
    fmtSci2 m.intercept

/-- `get_model_summary(country)` (predictor.py, lines 116-164): a plain
string in every case — the no-model case returns the informational
message instead of raising. -/
def get_model_summary (st : Registry) (country : String) : String :=
  match st.lookup country with
  | none => "No model available for " ++ country
  | some m => summaryBody country m

/-! ### Concrete frames used by the spec's worked examples -/

/-- The spec's detector example: one country, values `[100,110,90,95]`
over years `2000..2003`. -/
def exampleDf : List Row :=
  [⟨"A", 2000, 100⟩, ⟨"A", 2001, 110⟩, ⟨"A", 2002, 90⟩, ⟨"A", 2003, 95⟩]

/-- The spec's trainer example: exactly the three collinear points
`(2000,100), (2001,110), (2002,120)`. -/
def collinearDf : List Row :=
  [⟨"X", 2000, 100⟩, ⟨"X", 2001, 110⟩, ⟨"X", 2002, 120⟩]

/-! ### Helper lemmas -/

theorem mem_uniqueFirstAux [DecidableEq α] {x : α} :
    ∀ (seen l : List α), x ∈ uniqueFirstAux seen l ↔ x ∈ l ∧ x ∉ seen := by
  intro seen l
  induction l generalizing seen with
  | nil => simp [uniqueFirstAux]
  | cons h t ih =>
    by_cases hs : h ∈ seen
    · simp only [uniqueFirstAux, if_pos hs, ih, List.mem_cons]
      constructor
      · rintro ⟨hx, hns⟩; exact ⟨Or.inr hx, hns⟩
      · rintro ⟨hx | hx, hns⟩
        · exact absurd (hx ▸ hs) hns
        · exact ⟨hx, hns⟩
    · simp only [uniqueFirstAux, if_neg hs, List.mem_cons, ih, List.mem_cons]
      constructor
      · rintro (hx | ⟨hx, hns⟩)
        · exact ⟨Or.inl hx, hx ▸ hs⟩
        · exact ⟨Or.inr hx, fun hc => hns (Or.inr hc)⟩
      · rintro ⟨hx | hx, hns⟩
        · exact Or.inl hx
        · by_cases hxh : x = h
          · exact Or.inl hxh
          · exact Or.inr ⟨hx, fun hc => (hc.elim hxh hns)⟩

theorem mem_uniqueFirst [DecidableEq α] {x : α} {l : List α} :
    x ∈ uniqueFirst l ↔ x ∈ l := by
  simp [uniqueFirst, mem_uniqueFirstAux]

theorem uniqueFirstAux_sublist [DecidableEq α] :
    ∀ (seen l : List α), (uniqueFirstAux seen l).Sublist l := by
  intro seen l
  induction l generalizing seen with
  | nil => simp [uniqueFirstAux]
  | cons h t ih =>
    by_cases hs : h ∈ seen
    · simpa [uniqueFirstAux, if_pos hs] using (ih seen).trans (List.sublist_cons_self h t)
    · simpa [uniqueFirstAux, if_neg hs] using (ih (h :: seen)).cons₂ h

theorem uniqueFirst_sublist [DecidableEq α] (l : List α) :
    (uniqueFirst l).Sublist l := uniqueFirstAux_sublist [] l

theorem nodup_uniqueFirstAux [DecidableEq α] :
    ∀ (seen l : List α), (uniqueFirstAux seen l).Nodup := by
  intro seen l
  induction l generalizing seen with
  | nil => simp [uniqueFirstAux]
  | cons h t ih =>
    by_cases hs : h ∈ seen
    · simpa [uniqueFirstAux, if_pos hs] using ih seen
    · simp only [uniqueFirstAux, if_neg hs, List.nodup_cons]
      refine ⟨fun hc => ?_, ih (h :: seen)⟩
      exact ((mem_uniqueFirstAux (h :: seen) t).1 hc).2 (List.mem_cons_self h seen)

theorem nodup_uniqueFirst [DecidableEq α] (l : List α) :
    (uniqueFirst l).Nodup := nodup_uniqueFirstAux [] l

theorem changesOf_eq_zip :
    ∀ rows : List Row,
      changesOf rows = (rows.zip rows.tail).map (fun pq => pctEntry pq.1 pq.2) := by
  intro rows
  match rows with
  | [] => rfl
  | [_] => rfl
  | p :: q :: t =>
    simp only [changesOf, List.tail_cons, List.zip_cons_cons, List.map_cons]
    exact congrArg _ (changesOf_eq_zip (q :: t))

theorem mem_changesOf {e : Entry} {rows : List Row} (h : e ∈ changesOf rows) :
    ∃ pq ∈ rows.zip rows.tail, e = pctEntry pq.1 pq.2 := by
  rw [changesOf_eq_zip] at h
  obtain ⟨pq, hmem, heq⟩ := List.mem_map.1 h
  exact ⟨pq, hmem, heq.symm⟩

theorem length_changesOf : ∀ rows : List Row,
    (changesOf rows).length = rows.length - 1 := by
  intro rows
  rw [changesOf_eq_zip, List.length_map, List.length_zip, List.length_tail]
  omega

/-- Years of the change list are the years of the tail rows. -/
theorem changesOf_map_year (rows : List Row) :
    (changesOf rows).map (fun e => e.year) = rows.tail.map (fun r => r.year) := by
  rw [changesOf_eq_zip, List.map_map]
  have hz : (rows.zip rows.tail).map Prod.snd = rows.tail :=
    List.map_snd_zip rows rows.tail (List.length_tail rows ▸ Nat.sub_le _ _)
  calc (rows.zip rows.tail).map ((fun e : Entry => e.year) ∘ fun pq => pctEntry pq.1 pq.2)
      = ((rows.zip rows.tail).map Prod.snd).map (fun r => r.year) := by
        rw [List.map_map]; rfl
    _ = rows.tail.map (fun r => r.year) := by rw [hz]

/-- Stable insertion preserves a pairwise invariant `T` when the inserted
element `a` is `T`-before every element it passes and `T`-after every
element that strictly precedes it under the sort order. -/
theorem orderedInsert_pairwise_of (r : α → α → Prop) [DecidableRel r]
    {T : α → α → Prop} {a : α} :
    ∀ {l : List α}, (∀ b, ¬ r a b → T b a) → l.Pairwise T → (∀ b ∈ l, T a b) →
      (List.orderedInsert r a l).Pairwise T := by
  intro l h3 h1 h2
  induction l with
  | nil => simp
  | cons b t ih =>
    by_cases hr : r a b
    · rw [List.orderedInsert, if_pos hr]
      exact List.Pairwise.cons h2 h1
    · rw [List.orderedInsert, if_neg hr]
      refine List.Pairwise.cons ?_ (ih (List.Pairwise.of_cons h1)
        (fun c hc => h2 c (List.mem_cons_of_mem b hc)))
      intro c hc
      rcases (List.mem_orderedInsert r).1 hc with hca | hct
      · exact hca ▸ h3 b hr
      · exact (List.pairwise_cons.1 h1).1 c hct

/-- Insertion sort preserves a pairwise invariant `T` that holds
vacuously across strictly ordered pairs (`¬ r a b → T b a`): this is the
stability statement used for the tie-break claims. -/
theorem insertionSort_pairwise_of (r : α → α → Prop) [DecidableRel r]
    {T : α → α → Prop} (h3 : ∀ a b, ¬ r a b → T b a) :
    ∀ {l : List α}, l.Pairwise T → (List.insertionSort r l).Pairwise T := by
  intro l h1
  induction l with
  | nil => simp
  | cons a t ih =>
    rw [List.insertionSort]
    refine orderedInsert_pairwise_of r (h3 a) (ih (List.Pairwise.of_cons h1)) ?_
    intro b hb
    exact (List.pairwise_cons.1 h1).1 b ((List.perm_insertionSort r t).mem_iff.1 hb)

/-- `lookup` on a registry built by `filterMap` over a `Nodup` key list. -/
theorem lookup_filterMapRegistry [BEq α] [LawfulBEq α] [DecidableEq α]
    (f : α → Option β) {c : α} :
    ∀ {l : List α}, l.Nodup →
      (l.filterMap (fun x => (f x).map (fun m => (x, m)))).lookup c
        = if c ∈ l then f c else none := by
  intro l hnd
  induction l with
  | nil => simp
  | cons a t ih =>
    have hnd' := (List.nodup_cons.1 hnd).2
    have hna := (List.nodup_cons.1 hnd).1
    by_cases hca : c = a
    · subst hca
      cases hf : f c with
      | none =>
        simp [List.filterMap_cons, hf, Option.map_none', ih hnd', hna]
      | some m =>
        simp only [List.filterMap_cons, hf, Option.map_some']
        rw [List.lookup_cons]
        simp [hf, List.mem_cons_self]
    · cases hf : f a with
      | none =>
        simp only [List.filterMap_cons, hf, Option.map_none']
        rw [ih hnd']
        by_cases hct : c ∈ t
        · rw [if_pos hct, if_pos (List.mem_cons_of_mem a hct)]
        · rw [if_neg hct, if_neg (fun hc => (List.mem_cons.1 hc).elim hca hct)]
      | some m =>
        simp only [List.filterMap_cons, hf, Option.map_some']
        rw [List.lookup_cons]
        have hbeq : (c == a) = false := beq_false_of_ne hca
        simp only [hbeq]
        rw [ih hnd']
        by_cases hct : c ∈ t
        · rw [if_pos hct, if_pos (List.mem_cons_of_mem a hct)]
        · rw [if_neg hct, if_neg (fun hc => (List.mem_cons.1 hc).elim hca hct)]

/-- Keys of a registry built by `filterMap`. -/
theorem keys_filterMapRegistry (f : α → Option β) :
    ∀ l : List α,
      (l.filterMap (fun x => (f x).map (fun m => (x, m)))).map Prod.fst
        = l.filter (fun x => (f x).isSome) := by
  intro l
  induction l with
  | nil => rfl
  | cons a t ih =>
    rw [List.filterMap_cons, List.filter_cons]
    cases hf : f a with
    | none => simpa [hf] using ih
    | some m => simpa [hf] using ih

/-- A key absent from the key column is not found by `lookup`. -/
theorem lookup_eq_none_of_not_mem_keys [BEq α] [LawfulBEq α] {c : α} :
    ∀ {l : List (α × β)}, c ∉ l.map Prod.fst → l.lookup c = none := by
  intro l h
  induction l with
  | nil => rfl
  | cons e t ih =>
    rw [List.map_cons, List.mem_cons] at h
    push_neg at h
    rcases e with ⟨k, v⟩
    rw [List.lookup_cons]
    have : (c == k) = false := beq_false_of_ne h.1
    simp only [this]
    exact ih h.2

/-- Conversely, a `none` lookup means the key column misses the key. -/
theorem not_mem_keys_of_lookup_eq_none [BEq α] [LawfulBEq α] {c : α} :
    ∀ {l : List (α × β)}, l.lookup c = none → c ∉ l.map Prod.fst := by
  intro l h
  induction l with
  | nil => simp
  | cons e t ih =>
    rcases e with ⟨k, v⟩
    rw [List.lookup_cons] at h
    by_cases hck : c = k
    · subst hck; simp at h
    · have : (c == k) = false := beq_false_of_ne hck
      simp only [this] at h
      simp only [List.map_cons, List.mem_cons]
      push_neg
      exact ⟨hck, ih h⟩

/-! ### Lemmas about `detect_extremes` -/

theorem mem_detectCountries {df : List Row} {c : String} :
    c ∈ detectCountries df ↔ c ∈ df.map (fun r => r.country) := by
  unfold detectCountries
  rw [(List.perm_insertionSort _ _).mem_iff, mem_uniqueFirst]

/-- Inversion of membership in the detector's result mapping. -/
theorem detect_mem_inv {df : List Row} {key : String} {n : Int} {c : String}
    {v : List Entry × List Entry} (h : (c, v) ∈ detect_extremes df key n) :
    cvalidOf df c ≠ [] ∧
    v = ((List.insertionSort riseLe (cvalidOf df c)).take n.toNat,
         (List.insertionSort dipLe (cvalidOf df c)).take n.toNat) := by
  obtain ⟨a, _, heq⟩ := List.mem_filterMap.1 h
  by_cases he : (cvalidOf df a).isEmpty
  · rw [if_pos he] at heq; exact absurd heq (by simp)
  · rw [if_neg he] at heq
    simp only [Option.some.injEq, Prod.mk.injEq] at heq
    obtain ⟨rfl, rfl⟩ := heq
    exact ⟨by simpa [List.isEmpty_iff] using he, rfl⟩

/-- A country appears in the detector output iff it appears in the frame
and has at least one valid change entry. -/
theorem mem_detect_iff {df : List Row} {key : String} {n : Int} {c : String} :
    (∃ v, (c, v) ∈ detect_extremes df key n) ↔
      (c ∈ df.map (fun r => r.country) ∧ cvalidOf df c ≠ []) := by
  constructor
  · rintro ⟨v, hv⟩
    obtain ⟨a, ha, heq⟩ := List.mem_filterMap.1 hv
    by_cases he : (cvalidOf df a).isEmpty
    · rw [if_pos he] at heq; exact absurd heq (by simp)
    · rw [if_neg he] at heq
      simp only [Option.some.injEq, Prod.mk.injEq] at heq
      obtain ⟨rfl, -⟩ := heq
      exact ⟨mem_detectCountries.1 ha, by simpa [List.isEmpty_iff] using he⟩
  · rintro ⟨hc, hne⟩
    refine ⟨((List.insertionSort riseLe (cvalidOf df c)).take n.toNat,
             (List.insertionSort dipLe (cvalidOf df c)).take n.toNat), ?_⟩
    refine List.mem_filterMap.2 ⟨c, mem_detectCountries.2 hc, ?_⟩
    rw [if_neg (by simpa [List.isEmpty_iff] using hne)]

/-- With the panel invariant (no duplicate `(country, year)` pair), a
country's year-sorted rows have strictly increasing years. -/
theorem sortedRowsOf_year_lt {df : List Row} {c : String}
    (hnd : (df.map (fun r => (r.country, r.year))).Nodup) :
    (sortedRowsOf df c).Pairwise (fun a b => a.year < b.year) := by
  have hsorted : (sortedRowsOf df c).Pairwise rowLe :=
    List.sorted_insertionSort rowLe (countryRows df c)
  have h1 : ((countryRows df c).map (fun r => (r.country, r.year))).Nodup :=
    hnd.sublist (List.Sublist.map _ (List.filter_sublist df))
  have h2 : (countryRows df c).Pairwise
      (fun a b => (a.country, a.year) ≠ (b.country, b.year)) :=
    List.pairwise_map.1 h1
  have h3 : (countryRows df c).Pairwise (fun a b => a.year ≠ b.year) := by
    refine h2.imp_of_mem (fun {a b} ha hb hne hy => hne ?_)
    have hac : a.country = c := by simpa using (List.mem_filter.1 ha).2
    have hbc : b.country = c := by simpa using (List.mem_filter.1 hb).2
    rw [hac, hbc, hy]
  have h4 : (sortedRowsOf df c).Pairwise (fun a b => a.year ≠ b.year) :=
    ((List.perm_insertionSort rowLe (countryRows df c)).pairwise_iff
      (fun h he => h he.symm)).2 h3
  exact (hsorted.and h4).imp (fun h => lt_of_le_of_ne h.1 h.2)

/-- Under the panel invariant the change entries of a country carry
strictly increasing years. -/
theorem cvalidOf_year_lt {df : List Row} {c : String}
    (hnd : (df.map (fun r => (r.country, r.year))).Nodup) :
    (cvalidOf df c).Pairwise (fun a b => a.year < b.year) := by
  have hrows := @sortedRowsOf_year_lt df c hnd
  have htail : (sortedRowsOf df c).tail.Pairwise (fun a b => a.year < b.year) :=
    List.Pairwise.sublist (List.tail_sublist _) hrows
  have hmap : ((sortedRowsOf df c).tail.map (fun r => r.year)).Pairwise (· < ·) :=
    List.pairwise_map.2 htail
  have : ((cvalidOf df c).map (fun e => e.year)).Pairwise (· < ·) := by
    rw [cvalidOf, changesOf_map_year]; exact hmap
  exact List.pairwise_map.1 this

/-! ### Claim theorems -/

/-- C1: `detect_extremes` ranks, per country, the percentage changes of
the year-ascending row sequence, each change taken against the
immediately preceding observed row (the first row contributes no entry
and is excluded, not zeroed); it returns at most `top_n` rises and dips,
returns all entries (as a permutation, without error) when a country has
fewer valid entries than `top_n`, and lists a country iff it occurs in
the frame with at least one valid change entry.  On the spec's example
frame, for any `top_n ≥ 1`, the most negative dip is year 2002
(change `-200/11` ≈ −18.18%) and the top rise is year 2001 (+10%).
Values are assumed nonzero so that the rational embedding of
`pct_change` coincides with the float code (a zero predecessor would
produce ±inf there). -/
theorem detect_extremes_spec :
    (∀ (df : List Row) (key : String) (n : Int) (c : String)
       (rises dips : List Entry),
       (∀ r ∈ df, r.value ≠ 0) →
       (c, (rises, dips)) ∈ detect_extremes df key n →
         (sortedRowsOf df c).Pairwise (fun a b => a.year ≤ b.year)
         ∧ (∀ e ∈ rises ++ dips,
              ∃ pq ∈ (sortedRowsOf df c).zip (sortedRowsOf df c).tail,
                e.year = pq.2.year
                ∧ e.change_pct = (pq.2.value - pq.1.value) / pq.1.value * 100
                ∧ e.value = pq.2.value)
         ∧ rises.length ≤ n.toNat ∧ dips.length ≤ n.toNat
         ∧ ((cvalidOf df c).length ≤ n.toNat →
              rises.Perm (cvalidOf df c) ∧ dips.Perm (cvalidOf df c)))
    ∧ (∀ (df : List Row) (key : String) (n : Int) (c : String),
         (∃ v, (c, v) ∈ detect_extremes df key n)
           ↔ (c ∈ df.map (fun r => r.country) ∧ cvalidOf df c ≠ []))
    ∧ (∀ n : Int, 1 ≤ n →
         ∃ rises dips, detect_extremes exampleDf "gdp" n = [("A", (rises, dips))]
           ∧ dips.head? = some ⟨2002, -200/11, 90⟩
           ∧ rises.head? = some ⟨2001, 10, 110⟩) := by
  refine ⟨?_, fun df key n c => mem_detect_iff, ?_⟩
  · intro df key n c rises dips _ hmem
    obtain ⟨hne, heq⟩ := detect_mem_inv hmem
    simp only [Prod.mk.injEq] at heq
    obtain ⟨hr, hd⟩ := heq
    subst hr; subst hd
    refine ⟨List.sorted_insertionSort rowLe (countryRows df c), ?_, ?_, ?_, ?_⟩
    · intro e he
      have hcv : e ∈ cvalidOf df c := by
        rcases List.mem_append.1 he with h | h
        · exact (List.perm_insertionSort riseLe _).subset
            ((List.take_sublist _ _).subset h)
        · exact (List.perm_insertionSort dipLe _).subset
            ((List.take_sublist _ _).subset h)
      obtain ⟨pq, hpq, rfl⟩ := mem_changesOf hcv
      exact ⟨pq, hpq, rfl, rfl, rfl⟩
    · exact le_trans (le_of_eq (List.length_take _ _)) inf_le_left
    · exact le_trans (le_of_eq (List.length_take _ _)) inf_le_left
    · intro hlen
      constructor
      · rw [List.take_of_length_le
          (le_trans (le_of_eq (List.perm_insertionSort riseLe _).length_eq) hlen)]
        exact List.perm_insertionSort riseLe _
      · rw [List.take_of_length_le
          (le_trans (le_of_eq (List.perm_insertionSort dipLe _).length_eq) hlen)]
        exact List.perm_insertionSort dipLe _
  · intro n hn
    have hc : detectCountries exampleDf = ["A"] := by decide
    have hrs : List.insertionSort riseLe (cvalidOf exampleDf "A")
        = [⟨2001, 10, 110⟩, ⟨2003, 50/9, 95⟩, ⟨2002, -200/11, 90⟩] := by decide
    have hds : List.insertionSort dipLe (cvalidOf exampleDf "A")
        = [⟨2002, -200/11, 90⟩, ⟨2003, 50/9, 95⟩, ⟨2001, 10, 110⟩] := by decide
    have hdet : detect_extremes exampleDf "gdp" n =
        [("A", ((List.insertionSort riseLe (cvalidOf exampleDf "A")).take n.toNat,
                (List.insertionSort dipLe (cvalidOf exampleDf "A")).take n.toNat))] := by
      simp only [detect_extremes, hc, List.filterMap_cons, List.filterMap_nil]
      rw [if_neg (by decide : ¬ (cvalidOf exampleDf "A").isEmpty = true)]
    rw [hrs, hds] at hdet
    obtain ⟨k, hk⟩ : ∃ k, n.toNat = k + 1 := ⟨n.toNat - 1, by omega⟩
    rw [hk, List.take_succ_cons, List.take_succ_cons] at hdet
    exact ⟨_, _, hdet, rfl, rfl⟩

/-- Concrete run of `detect_extremes_spec`: the example frame at
`top_n = 2` (membership and the nonzero-value hypothesis hold by
computation) and the head entries at `top_n = 1`. -/
theorem detect_extremes_spec_witness :
    ((sortedRowsOf exampleDf "A").Pairwise (fun a b => a.year ≤ b.year)
      ∧ (∃ rises dips, detect_extremes exampleDf "gdp" 1 = [("A", (rises, dips))]
           ∧ dips.head? = some ⟨2002, -200/11, 90⟩
           ∧ rises.head? = some ⟨2001, 10, 110⟩)) := by
  constructor
  · exact (detect_extremes_spec.1 exampleDf "gdp" 2 "A"
      [⟨2001, 10, 110⟩, ⟨2003, 50/9, 95⟩] [⟨2002, -200/11, 90⟩, ⟨2003, 50/9, 95⟩]
      (by decide) (by decide)).1
  · exact detect_extremes_spec.2.2 1 (by decide)

/-- C3 counterexample: the source has no `top_n` validation — pandas
`nlargest`/`nsmallest` with a non-positive `n` return the empty
selection, so `detect_extremes` with `top_n = 0` returns a result (the
country mapped to empty lists) instead of failing with
`InvalidParameter`. -/
theorem detect_topn_nonpos_counterexample :
    detect_extremes [⟨"A", 2000, 100⟩, ⟨"A", 2001, 110⟩] "gdp" 0
      = [("A", ([], []))] := by decide

/-- C3 amended: `detect_extremes` with `top_n ≤ 0` raises no error and
returns the usual mapping in which every listed country has empty rises
and dips. -/
theorem detect_topn_nonpos_spec :
    ∀ (df : List Row) (key : String) (n : Int), n ≤ 0 →
      ∀ c v, (c, v) ∈ detect_extremes df key n → v = ([], []) := by
  intro df key n hn c v hmem
  obtain ⟨-, heq⟩ := detect_mem_inv hmem
  rw [heq, Int.toNat_of_nonpos hn]
  simp

/-- Concrete run of `detect_topn_nonpos_spec` on a two-row frame. -/
theorem detect_topn_nonpos_spec_witness :
    ∃ v, ("A", v) ∈ detect_extremes [⟨"A", 2000, 100⟩, ⟨"A", 2001, 110⟩] "gdp" 0
      ∧ v = ([], []) :=
  ⟨([], []), by decide,
    detect_topn_nonpos_spec [⟨"A", 2000, 100⟩, ⟨"A", 2001, 110⟩] "gdp" 0
      (by decide) "A" ([], []) (by decide)⟩

/-- C9: within a country's result the rises are ordered by change
descending and the dips by change ascending, and entries with equal
change values keep stable year-ascending order (`keep='first'` of the
stable `nlargest`/`nsmallest` selection); equal values never cause an
error (the embedded detector is total).  The hypothesis is the panel
invariant: no duplicate `(country, year)` pair. -/
theorem detect_order_spec :
    ∀ (df : List Row) (key : String) (n : Int) (c : String)
      (rises dips : List Entry),
      (df.map (fun r => (r.country, r.year))).Nodup →
      (c, (rises, dips)) ∈ detect_extremes df key n →
        rises.Pairwise (fun a b => b.change_pct ≤ a.change_pct)
        ∧ dips.Pairwise (fun a b => a.change_pct ≤ b.change_pct)
        ∧ rises.Pairwise (fun a b => a.change_pct = b.change_pct → a.year < b.year)
        ∧ dips.Pairwise (fun a b => a.change_pct = b.change_pct → a.year < b.year) := by
  intro df key n c rises dips hnd hmem
  obtain ⟨-, heq⟩ := detect_mem_inv hmem
  simp only [Prod.mk.injEq] at heq
  obtain ⟨hr, hd⟩ := heq
  subst hr; subst hd
  have hS : (cvalidOf df c).Pairwise
      (fun a b : Entry => a.change_pct = b.change_pct → a.year < b.year) := by
    refine (cvalidOf_year_lt hnd).imp ?_
    intro a b h _
    exact h
  refine ⟨?_, ?_, ?_, ?_⟩
  · exact List.Pairwise.sublist (List.take_sublist _ _)
      (List.sorted_insertionSort riseLe _)
  · exact List.Pairwise.sublist (List.take_sublist _ _)
      (List.sorted_insertionSort dipLe _)
  · refine List.Pairwise.sublist (List.take_sublist _ _)
      (insertionSort_pairwise_of riseLe ?_ hS)
    intro a b hnr hcp
    have hlt := not_le.1 hnr
    rw [hcp] at hlt
    exact absurd hlt (lt_irrefl _)
  · refine List.Pairwise.sublist (List.take_sublist _ _)
      (insertionSort_pairwise_of dipLe ?_ hS)
    intro a b hnr hcp
    have hlt := not_le.1 hnr
    rw [hcp] at hlt
    exact absurd hlt (lt_irrefl _)

/-- Concrete run of `detect_order_spec` on the example frame. -/
theorem detect_order_spec_witness :
    ([⟨2001, 10, 110⟩, ⟨2003, 50/9, 95⟩] : List Entry).Pairwise
        (fun a b => b.change_pct ≤ a.change_pct)
      ∧ ([⟨2002, -200/11, 90⟩, ⟨2003, 50/9, 95⟩] : List Entry).Pairwise
        (fun a b => a.change_pct ≤ b.change_pct)
      ∧ ([⟨2001, 10, 110⟩, ⟨2003, 50/9, 95⟩] : List Entry).Pairwise
        (fun a b => a.change_pct = b.change_pct → a.year < b.year)
      ∧ ([⟨2002, -200/11, 90⟩, ⟨2003, 50/9, 95⟩] : List Entry).Pairwise
        (fun a b => a.change_pct = b.change_pct → a.year < b.year) :=
  detect_order_spec exampleDf "gdp" 2 "A"
    [⟨2001, 10, 110⟩, ⟨2003, 50/9, 95⟩] [⟨2002, -200/11, 90⟩, ⟨2003, 50/9, 95⟩]
    (by decide) (by decide)

/-- C2: `train` registers no model (and, being total, raises no error)
for any country with fewer than 3 observations — the country is simply
absent from the registry, which is also the returned metrics mapping —
and on the three collinear points `(2000,100), (2001,110), (2002,120)`
the ordinary-least-squares fit has slope exactly 10, `r2_score` exactly
1 and `mae` exactly 0 (the claim's "approximately" holds exactly over
the rationals). -/
theorem train_spec :
    (∀ (df : List Row) (c : String), (countryRows df c).length < 3 →
        (train df).lookup c = none)
    ∧ (∃ m, (train collinearDf).lookup "X" = some m
         ∧ m.coefficient = 10 ∧ m.r2_score = 1 ∧ m.mae = 0) := by
  constructor
  · intro df c hlt
    unfold train
    rw [lookup_filterMapRegistry (trainOne df) (nodup_uniqueFirst _)]
    by_cases hc : c ∈ uniqueFirst (df.map fun r => r.country)
    · rw [if_pos hc]
      have h3 : (sortYear (countryRows df c)).length < 3 := by
        unfold sortYear
        rw [(List.perm_insertionSort rowLe _).length_eq]
        exact hlt
      simp [trainOne, h3]
    · rw [if_neg hc]
  · exact ⟨⟨10, -19900, 1, 0⟩, by decide, rfl, rfl, rfl⟩

/-- Concrete run of `train_spec`: a country absent from the frame has
fewer than 3 rows and gets no model. -/
theorem train_spec_witness : (train collinearDf).lookup "Y" = none :=
  train_spec.1 collinearDf "Y" (by decide)

/-- C8: `predict` fails — with the `ValueError` message, which the spec
names `UnknownCountry` — iff no model is registered for the country;
with a registered model it returns `.ok` with exactly one
`(country, year, value)` row per requested year, each valued on the
fitted line. -/
theorem predict_spec :
    ∀ (st : Registry) (c : String) (years : List Int),
      ((∃ e, predict st c years = .error e) ↔ st.lookup c = none)
      ∧ (∀ m, st.lookup c = some m →
          predict st c years = .ok (predictRows m c years)
          ∧ (predictRows m c years).length = years.length
          ∧ ∀ y ∈ years,
              (⟨c, y, m.coefficient * (y : Rat) + m.intercept⟩ : Pred)
                ∈ predictRows m c years) := by
  intro st c years
  constructor
  · constructor
    · rintro ⟨e, he⟩
      cases hl : st.lookup c with
      | none => rfl
      | some m => unfold predict at he; rw [hl] at he; cases he
    · intro hl
      exact ⟨"No model trained for " ++ c, by unfold predict; rw [hl]⟩
  · intro m hm
    refine ⟨by unfold predict; rw [hm], List.length_map _ _, ?_⟩
    intro y hy
    exact List.mem_map_of_mem _ hy

/-- Concrete run of `predict_spec`: a one-entry registry predicts one
row per requested year. -/
theorem predict_spec_witness :
    predict [("X", (⟨10, -19900, 1, 0⟩ : Model))] "X" [2003, 2004]
        = .ok (predictRows ⟨10, -19900, 1, 0⟩ "X" [2003, 2004])
      ∧ (predictRows (⟨10, -19900, 1, 0⟩ : Model) "X" [2003, 2004]).length
          = [(2003 : Int), 2004].length
      ∧ ∀ y ∈ [(2003 : Int), 2004],
          (⟨"X", y, (⟨10, -19900, 1, 0⟩ : Model).coefficient * (y : Rat)
              + (⟨10, -19900, 1, 0⟩ : Model).intercept⟩ : Pred)
            ∈ predictRows ⟨10, -19900, 1, 0⟩ "X" [2003, 2004] :=
  (predict_spec [("X", ⟨10, -19900, 1, 0⟩)] "X" [2003, 2004]).2
    ⟨10, -19900, 1, 0⟩ (by decide)

/-- C10: `get_model_summary` on a country with no registered model
returns the informational string and — being a total function into
`String` — never raises, unlike `predict`. -/
theorem get_model_summary_spec :
    ∀ (st : Registry) (c : String), st.lookup c = none →
      get_model_summary st c = "No model available for " ++ c := by
  intro st c h
  unfold get_model_summary
  rw [h]

/-- Concrete run of `get_model_summary_spec` on an empty registry. -/
theorem get_model_summary_spec_witness :
    get_model_summary [] "France" = "No model available for France" :=
  (get_model_summary_spec [] "France" rfl).trans (by decide)

/-- C6: for `indicator_key = "gdp"` and year 2020, `_augment_reason`
returns exactly the global pandemic description followed by the
GDP-specific 2020 description (two reasons, global first); in general
every rule whose keyword occurs as a substring of the indicator key and
whose mapping contains the year contributes its description, and the
global event, when present, is always the first reason. -/
theorem augment_reason_spec :
    (_augment_reason "gdp" 2020
       = ["COVID-19 pandemic shock: mobility restrictions, demand collapse, health system strain",
          "Historic contraction from pandemic restrictions"])
    ∧ (∀ (key : String) (y : Int) (frag : String) (mp : List (Int × String)) (d : String),
         (frag, mp) ∈ INDICATOR_CONTEXT_RULES → strContains key frag = true →
         mp.lookup y = some d → d ∈ _augment_reason key y)
    ∧ (∀ (key : String) (y : Int) (d : String),
         GLOBAL_EVENTS.lookup y = some d → (_augment_reason key y).head? = some d) := by
  refine ⟨by decide, ?_, ?_⟩
  · intro key y frag mp d hrule hsub hl
    unfold _augment_reason
    refine List.mem_append.2 (Or.inr ?_)
    refine List.mem_filterMap.2 ⟨(frag, mp), hrule, ?_⟩
    rw [if_pos hsub]
    exact hl
  · intro key y d hg
    unfold _augment_reason
    rw [hg]
    rfl

/-- Concrete run of `augment_reason_spec`: the substring rule-matching
(`"inflation"` inside `"inflation_rate"`, `"gdp"` inside `"gdp_growth"`)
and the global event heading the list. -/
theorem augment_reason_spec_witness :
    "Global inflation spike driven by energy & supply chains"
        ∈ _augment_reason "inflation_rate" 2022
      ∧ (_augment_reason "gdp_growth" 2020).head?
          = some "COVID-19 pandemic shock: mobility restrictions, demand collapse, health system strain" :=
  ⟨augment_reason_spec.2.1 "inflation_rate" 2022 "inflation"
      [(2020, "Low inflation amid demand shock"),
       (2022, "Global inflation spike driven by energy & supply chains")]
      "Global inflation spike driven by energy & supply chains"
      (by decide) (by decide) (by decide),
   augment_reason_spec.2.2 "gdp_growth" 2020
      "COVID-19 pandemic shock: mobility restrictions, demand collapse, health system strain"
      (by decide)⟩

/-- The country column of `predict_next_year`'s output over an
arbitrary country list: one entry per listed country with a model. -/
theorem flatten_predict_map_country (st : Registry) (df : List Row) :
    ∀ l : List String,
      (((l.filterMap (fun c =>
          match st.lookup c with
          | none => none
          | some m => some (predictRows m c
              [maxYearD ((countryRows df c).map (fun r => r.year)) + 1]))).flatten).map
        (fun p => p.country))
      = l.filter (fun c => (st.lookup c).isSome) := by
  intro l
  induction l with
  | nil => rfl
  | cons a t ih =>
    rw [List.filterMap_cons, List.filter_cons]
    cases hl : st.lookup a with
    | none => simpa [hl] using ih
    | some m => simpa [hl, predictRows] using ih

/-- C5: with a fresh (empty) registry, `predict_next_year` trains on the
frame and returns exactly one prediction per registered country — the
output's country column equals the registry's (duplicate-free) key
column — each at that country's maximum observed year plus 1 and valued
on the fitted line; countries without a model are absent. -/
theorem predict_next_year_spec :
    ∀ df : List Row,
      ((predict_next_year [] df).map (fun p => p.country)
          = (train df).map Prod.fst)
      ∧ ((train df).map Prod.fst).Nodup
      ∧ (∀ p ∈ predict_next_year [] df,
           ∃ m, (train df).lookup p.country = some m
             ∧ p.year = maxYearD ((countryRows df p.country).map (fun r => r.year)) + 1
             ∧ p.value = m.coefficient * (p.year : Rat) + m.intercept)
      ∧ (∀ c, (train df).lookup c = none →
           c ∉ (predict_next_year [] df).map (fun p => p.country)) := by
  intro df
  have hsimp : predict_next_year [] df
      = ((uniqueFirst (df.map (fun r => r.country))).filterMap (fun c =>
          match (train df).lookup c with
          | none => none
          | some m => some (predictRows m c
              [maxYearD ((countryRows df c).map (fun r => r.year)) + 1]))).flatten := rfl
  have h1 : (predict_next_year [] df).map (fun p => p.country)
      = (train df).map Prod.fst := by
    rw [hsimp, flatten_predict_map_country (train df) df]
    conv_rhs => rw [train]
    rw [keys_filterMapRegistry]
    refine List.filter_congr ?_
    intro x hx
    unfold train
    rw [lookup_filterMapRegistry (trainOne df) (nodup_uniqueFirst _), if_pos hx]
  refine ⟨h1, ?_, ?_, ?_⟩
  · rw [train, keys_filterMapRegistry]
    exact List.Nodup.filter _ (nodup_uniqueFirst _)
  · intro p hp
    rw [hsimp] at hp
    obtain ⟨block, hbmem, hpb⟩ := List.mem_flatten.1 hp
    obtain ⟨c, _, hceq⟩ := List.mem_filterMap.1 hbmem
    cases hl : (train df).lookup c with
    | none => rw [hl] at hceq; cases hceq
    | some m =>
      rw [hl] at hceq
      injection hceq with hblock
      subst hblock
      rcases List.mem_singleton.1 hpb with rfl
      exact ⟨m, hl, rfl, rfl⟩
  · intro c hnone hcmem
    rw [h1] at hcmem
    exact not_mem_keys_of_lookup_eq_none hnone hcmem

/-- Concrete run of `predict_next_year_spec` on the collinear frame
whose last year is 2002: the only prediction is for year 2003. -/
theorem predict_next_year_spec_witness :
    ∃ m, (train collinearDf).lookup ("X" : String) = some m
      ∧ (2003 : Int) = maxYearD ((countryRows collinearDf "X").map (fun r => r.year)) + 1
      ∧ (130 : Rat) = m.coefficient * ((2003 : Int) : Rat) + m.intercept :=
  (predict_next_year_spec collinearDf).2.2.1 ⟨"X", 2003, 130⟩ (by decide)

/-- C4: `predict_with_confidence` ignores its `confidence` argument —
any two values produce identical output — and every returned row of a
country with a model carries `lower_bound = value - mae * 2` and
`upper_bound = value + mae * 2`. -/
theorem predict_with_confidence_spec :
    (∀ (st : Registry) (df : List Row) (years : List Int) (c1 c2 : Rat),
        predict_with_confidence st df years c1 = predict_with_confidence st df years c2)
    ∧ (∀ (st : Registry) (df : List Row) (years : List Int) (conf : Rat),
        ∀ p ∈ predict_with_confidence st df years conf,
         ∃ m, (if st.isEmpty then train df else st).lookup p.country = some m
           ∧ p.lower_bound = p.value - m.mae * 2
           ∧ p.upper_bound = p.value + m.mae * 2) := by
  constructor
  · intro st df years c1 c2
    rfl
  · intro st df years conf p hp
    unfold predict_with_confidence at hp
    obtain ⟨block, hbmem, hpb⟩ := List.mem_flatten.1 hp
    obtain ⟨c, _, hceq⟩ := List.mem_filterMap.1 hbmem
    cases hl : (if st.isEmpty then train df else st).lookup c with
    | none => rw [hl] at hceq; cases hceq
    | some m =>
      rw [hl] at hceq
      injection hceq with hblock
      subst hblock
      obtain ⟨q, hq, rfl⟩ := List.mem_map.1 hpb
      obtain ⟨y, _, rfl⟩ := List.mem_map.1 hq
      exact ⟨m, hl, rfl, rfl⟩

/-- Concrete run of `predict_with_confidence_spec`: confidence 0.95 and
0.5 coincide, and the collinear frame's zero-`mae` model yields
degenerate bounds equal to the prediction. -/
theorem predict_with_confidence_spec_witness :
    predict_with_confidence [] collinearDf [2030] (95 / 100)
        = predict_with_confidence [] collinearDf [2030] (1 / 2)
      ∧ ∃ m, (if ([] : Registry).isEmpty then train collinearDf else ([] : Registry)).lookup "X"
            = some m
          ∧ (400 : Rat) = 400 - m.mae * 2 ∧ (400 : Rat) = 400 + m.mae * 2 :=
  ⟨predict_with_confidence_spec.1 [] collinearDf [2030] (95 / 100) (1 / 2),
   predict_with_confidence_spec.2 [] collinearDf [2030] (95 / 100)
     ⟨"X", 2030, 400, 400, 400⟩ (by decide)⟩

/-- The `lines` loop accumulates, country by country, the dip lines then
the rise lines. -/
theorem movementLines_eq_flatMap (df : List Row) (key : String) (n : Int) :
    movementLines df key n = (detect_extremes df key n).flatMap
      (fun cv => cv.2.2.map (dipLine key cv.1) ++ cv.2.1.map (riseLine key cv.1)) := by
  unfold movementLines
  have hfold : ∀ (l : List (String × (List Entry × List Entry))) (init : List String),
      l.foldl (fun acc cv =>
          acc ++ cv.2.2.map (dipLine key cv.1) ++ cv.2.1.map (riseLine key cv.1)) init
        = init ++ l.flatMap
            (fun cv => cv.2.2.map (dipLine key cv.1) ++ cv.2.1.map (riseLine key cv.1)) := by
    intro l
    induction l with
    | nil => intro init; simp
    | cons a t ih =>
      intro init
      rw [List.foldl_cons, ih, List.flatMap_cons]
      simp [List.append_assoc]
  rw [hfold]
  simp

theorem dipLine_ne_disclaimer (key c : String) (e : Entry) :
    dipLine key c e ≠ disclaimerLine := by
  intro h
  have h1 : (dipLine key c e).data.head? = some '🔻' := by
    simp only [dipLine]
    rw [String.data_append]
    rfl
  have h2 : disclaimerLine.data.head? = some '_' := rfl
  rw [h, h2] at h1
  exact absurd h1 (by decide)

theorem riseLine_ne_disclaimer (key c : String) (e : Entry) :
    riseLine key c e ≠ disclaimerLine := by
  intro h
  have h1 : (riseLine key c e).data.head? = some '🔺' := by
    simp only [riseLine]
    rw [String.data_append]
    rfl
  have h2 : disclaimerLine.data.head? = some '_' := rfl
  rw [h, h2] at h1
  exact absurd h1 (by decide)

/-- No movement line equals the disclaimer. -/
theorem disclaimer_not_mem_movementLines (df : List Row) (key : String) (n : Int) :
    disclaimerLine ∉ movementLines df key n := by
  intro hmem
  rw [movementLines_eq_flatMap] at hmem
  obtain ⟨cv, _, hx⟩ := List.mem_flatMap.1 hmem
  rcases List.mem_append.1 hx with hx | hx
  · obtain ⟨e, _, he⟩ := List.mem_map.1 hx
    exact dipLine_ne_disclaimer key cv.1 e he
  · obtain ⟨e, _, he⟩ := List.mem_map.1 hx
    exact riseLine_ne_disclaimer key cv.1 e he

/-- C7: `generate_explanations` on the empty frame returns the single
"no data" line; when the frame is non-empty but no movement line is
produced it returns the single "no significant movements" line; the
movement lines list every country's dips before its rises (in detector
order); and in the movement-bearing case the output is the first-seen
deduplication of the lines (an order-preserving sublist with the same
members and no duplicates) with the disclaimer appended as last
element. -/
theorem generate_explanations_spec :
    (∀ (key : String) (n : Int),
        generate_explanations [] key n = ["No data available to analyze dips/rises."])
    ∧ (∀ (df : List Row) (key : String) (n : Int), df ≠ [] →
         movementLines df key n = [] →
         generate_explanations df key n
           = ["No significant year-over-year movements detected."])
    ∧ (∀ (df : List Row) (key : String) (n : Int),
         movementLines df key n = (detect_extremes df key n).flatMap
           (fun cv => cv.2.2.map (dipLine key cv.1) ++ cv.2.1.map (riseLine key cv.1)))
    ∧ (∀ (df : List Row) (key : String) (n : Int), df ≠ [] →
         movementLines df key n ≠ [] →
         generate_explanations df key n
             = uniqueFirst (movementLines df key n) ++ [disclaimerLine]
           ∧ (generate_explanations df key n).getLast? = some disclaimerLine
           ∧ (uniqueFirst (movementLines df key n)).Sublist (movementLines df key n)
           ∧ (∀ x, x ∈ uniqueFirst (movementLines df key n) ↔ x ∈ movementLines df key n)
           ∧ (generate_explanations df key n).Nodup) := by
  refine ⟨fun key n => rfl, ?_, movementLines_eq_flatMap, ?_⟩
  · intro df key n hdf hml
    unfold generate_explanations
    rw [if_neg (by simpa [List.isEmpty_iff] using hdf), hml]
    rfl
  · intro df key n hdf hml
    have hout : generate_explanations df key n
        = uniqueFirst (movementLines df key n) ++ [disclaimerLine] := by
      unfold generate_explanations
      rw [if_neg (by simpa [List.isEmpty_iff] using hdf),
          if_neg (by simpa [List.isEmpty_iff] using hml)]
    refine ⟨hout, ?_, uniqueFirst_sublist _, fun x => mem_uniqueFirst, ?_⟩
    · rw [hout]
      exact List.getLast?_concat _
    · rw [hout, List.nodup_append]
      refine ⟨nodup_uniqueFirst _, List.nodup_singleton _, ?_⟩
      intro x hx hx1
      rcases List.mem_singleton.1 hx1 with rfl
      exact disclaimer_not_mem_movementLines df key n (mem_uniqueFirst.1 hx)

/-- Concrete runs of `generate_explanations_spec`: the empty frame, a
one-row frame (no valid change, hence the "no significant movements"
line) and the example frame (disclaimer last, duplicate-free output). -/
theorem generate_explanations_spec_witness :
    generate_explanations [] "gdp" 3 = ["No data available to analyze dips/rises."]
      ∧ generate_explanations [⟨"A", 2000, 100⟩] "gdp" 3
          = ["No significant year-over-year movements detected."]
      ∧ (generate_explanations exampleDf "gdp" 3).getLast? = some disclaimerLine
      ∧ (generate_explanations exampleDf "gdp" 3).Nodup :=
  ⟨generate_explanations_spec.1 "gdp" 3,
   generate_explanations_spec.2.1 [⟨"A", 2000, 100⟩] "gdp" 3 (by decide) (by decide),
   (generate_explanations_spec.2.2.2 exampleDf "gdp" 3 (by decide) (by decide)).2.1,
   (generate_explanations_spec.2.2.2 exampleDf "gdp" 3 (by decide) (by decide)).2.2.2.2⟩

end EconDash
